import Mathlib

/-!
Verification development for the model lifecycle / runtime-orchestration
core of the repository (backend/app/models/base.py,
backend/app/services/model_registry.py, backend/app/utils/hf.py).

The Python code is shallowly embedded: mutable object state becomes
explicit state passing, the filesystem probe is_downloaded() becomes an
explicit boolean parameter, wall-clock timestamps become explicit Nat
arguments, and float arithmetic in the progress engine is modelled with
exact rationals.
-/

namespace ServerCore

/-! ## Runtime State Tracker (base.py, BaseModelWrapper._runtime_state) -/

/-- The mutable runtime record kept in BaseModelWrapper._runtime_state.
The details blob is modelled as an opaque list of key strings, the server
blob as an optional opaque string. -/
structure RuntimeState where
  state : String
  progress : Nat
  status : String
  details : List String
  server : Option String
  last_error : Option String
  downloaded : Bool
  updated_at : Nat
  deriving Repr, DecidableEq

/-- Clamp of update_runtime for the progress field:
max(0, min(100, int(progress))). -/
def clampProgress (p : Int) : Nat :=
  (max 0 (min 100 p)).toNat

/-- BaseModelWrapper.update_runtime: sparse atomic update. A parameter
value none means the argument was not supplied (the None default for
state / progress / status / downloaded, the _UNSET sentinel for details /
server / last_error); some v applies the update. Every call stamps
updated_at with the current time t. -/
def update_runtime (rs : RuntimeState) (t : Nat)
    (state : Option String) (progress : Option Int) (status : Option String)
    (details : Option (List String)) (server : Option (Option String))
    (downloaded : Option Bool) (last_error : Option (Option String)) :
    RuntimeState :=
  { state := state.getD rs.state
    progress := match progress with
      | some p => clampProgress p
      | none => rs.progress
    status := status.getD rs.status
    details := details.getD rs.details
    server := server.getD rs.server
    last_error := last_error.getD rs.last_error
    downloaded := downloaded.getD rs.downloaded
    updated_at := t }

/-- The in-memory state of one BaseModelWrapper instance that the claims
depend on: the _is_loaded flag, the device preference list, and the
runtime record. -/
structure WrapperState where
  is_loaded : Bool
  preferred_device_ids : List Nat
  runtime : RuntimeState
  deriving Repr, DecidableEq

/-- The initial _runtime_state installed by BaseModelWrapper.__init__
(state idle, progress 0, status Idle, no server, no error, downloaded
probed from disk). -/
def initRuntime (disk : Bool) (t : Nat) : RuntimeState :=
  { state := "idle"
    progress := 0
    status := "Idle"
    details := []
    server := none
    last_error := none
    downloaded := disk
    updated_at := t }

/-- A freshly constructed wrapper: not loaded, given device preference,
initial runtime record. -/
def initWrapper (prefs : List Nat) (disk : Bool) (t : Nat) : WrapperState :=
  { is_loaded := false
    preferred_device_ids := prefs
    runtime := initRuntime disk t }

/-- BaseModelWrapper.runtime_status: a snapshot of the runtime record
with the downloaded flag reconciled against live on-disk presence
(snapshot.downloaded or is_downloaded()). The disk parameter is the
result of the is_downloaded() filesystem probe at read time. -/
def runtime_status (disk : Bool) (s : WrapperState) : RuntimeState :=
  { s.runtime with downloaded := s.runtime.downloaded || disk }

/-- BaseModelWrapper.unload: runs the concrete _unload body (modelled as
a state transformer u), clears _is_loaded, then updates the runtime
record to state idle, progress 0, status Model unloaded, server cleared,
downloaded re-probed from disk. -/
def unload (u : WrapperState → WrapperState) (disk : Bool) (t : Nat)
    (s : WrapperState) : WrapperState :=
  let s1 := u s
  { s1 with
    is_loaded := false
    runtime := (update_runtime s1.runtime t (some "idle") (some 0)
      (some "Model unloaded") none (some none) (some disk) none) }

/-- The update_runtime call ensure_loaded performs on entering the load
path (state loading, progress 5, status Preparing model load, downloaded
re-probed). -/
def loading_update (disk : Bool) (t : Nat) (s : WrapperState) : WrapperState :=
  { s with runtime := (update_runtime s.runtime t (some "loading")
      (some 5) (some "Preparing model load") none none (some disk) none) }

/-- BaseModelWrapper.ensure_loaded, sequential view (the exclusive region
is entered by one caller; the interleaved view is LoadSys below): the
concrete load body is modelled as a function L returning an optional
raised exception message together with the state it leaves behind.
Returns the raised exception (if any) and the final wrapper state. -/
def ensure_loaded (L : WrapperState → Option String × WrapperState)
    (disk : Bool) (t : Nat) (s : WrapperState) :
    Option String × WrapperState :=
  if s.is_loaded then (none, s)
  else
    let s1 : WrapperState := loading_update disk t s
    match L s1 with
    | (some exc, s2) =>
        (some exc,
          { s2 with runtime := (update_runtime s2.runtime t (some "error")
              (some 0) (some ("Load failed: " ++ exc)) none none none
              (some (some exc))) })
    | (none, s2) =>
        (none,
          { s2 with
            is_loaded := true
            runtime := (update_runtime s2.runtime t (some "ready")
              (some 100) (some "Model ready") none none (some true) none) })

/-! ## Model Registry (model_registry.py, ModelRegistry)

For registry-level claims the instance is observed through the calls the
registry makes on it (update_device_preferences, is_loaded, unload,
ensure_loaded). An instrumented instance model records those calls as an
event trace; loads are assumed to succeed (the success scenario the
claims describe). -/

/-- A model-lifecycle call performed on an instance. -/
inductive LifeEvent where
  | unloadEv
  | loadEv
  deriving Repr, DecidableEq

/-- Instrumented view of a model instance as the registry drives it. -/
structure InstModel where
  is_loaded : Bool
  preferred_device_ids : List Nat
  events : List LifeEvent
  deriving Repr, DecidableEq

/-- BaseModelWrapper.update_device_preferences: new_ids = list(ids or []);
replaces the preference list when it differs and reports whether it
changed. -/
def inst_update_device_preferences (m : InstModel) (ids : Option (List Nat)) :
    Bool × InstModel :=
  let new_ids := ids.getD []
  if new_ids ≠ m.preferred_device_ids then
    (true, { m with preferred_device_ids := new_ids })
  else
    (false, m)

/-- Effect of BaseModelWrapper.unload on the instrumented instance: the
concrete _unload body runs (one unloadEv) and _is_loaded is cleared. -/
def inst_unload (m : InstModel) : InstModel :=
  { m with is_loaded := false, events := m.events ++ [LifeEvent.unloadEv] }

/-- Effect of BaseModelWrapper.ensure_loaded on the instrumented
instance when load succeeds: if already loaded nothing happens,
otherwise the concrete load body runs (one loadEv) and _is_loaded is
set. -/
def inst_ensure_loaded (m : InstModel) : InstModel :=
  if m.is_loaded then m
  else { m with is_loaded := true, events := m.events ++ [LifeEvent.loadEv] }

/-- ModelRegistry.ensure_loaded(key, device_ids), acting on the instance
returned by get(key): if device_ids is not None, update the preferences;
if they changed and the model is loaded, unload it; finally delegate to
the instance ensure_loaded. -/
def registry_ensure_loaded (m : InstModel) (device_ids : Option (List Nat)) :
    InstModel :=
  match device_ids with
  | none => inst_ensure_loaded m
  | some ids =>
      let r := inst_update_device_preferences m (some ids)
      let m2 := if r.1 && r.2.is_loaded then inst_unload r.2 else r.2
      inst_ensure_loaded m2

/-- ModelMetadata (base.py): immutable identity record (the open params
bag is omitted; no claim observes it). -/
structure ModelMetadata where
  identifier : String
  task : String
  description : String
  format : String
  deriving Repr, DecidableEq

/-- ModelSlot (model_registry.py): metadata plus factory plus the lazily
created cached instance. The factory closure is modelled as an opaque
handle; invoking it is observable only through the inst field becoming
some. -/
structure ModelSlot where
  metadata : ModelMetadata
  factory : Nat
  inst : Option InstModel
  deriving Repr, DecidableEq

/-- The registry slot table (dict key -> slot, insertion ordered). -/
abbrev SlotTable := List (String × ModelSlot)

/-- Update the slot stored under a key. -/
def setSlot (slots : SlotTable) (key : String) (slot : ModelSlot) :
    SlotTable :=
  (slots : List (String × ModelSlot)).map
    (fun p => if p.1 = key then (p.1, slot) else p)

/-- ModelRegistry.unload(key): look the slot up (raising
KeyError(Unknown model key) when absent), read its cached instance, and
only when an instance exists run the model-level unload on it. The
factory is never consulted. -/
def registry_unload (slots : SlotTable) (key : String) :
    Except String SlotTable :=
  match (slots : List (String × ModelSlot)).lookup key with
  | none => Except.error ("Unknown model key: " ++ key)
  | some slot =>
      match slot.inst with
      | none => Except.ok slots
      | some m =>
          Except.ok (setSlot slots key { slot with inst := some (inst_unload m) })

/-- Modelled from the spec: ModelRegistry.register is not present in the
src tree (only backend/tests/test_model_registry.py calls it). Per the
spec, register(key, metadata, factory) is the explicit registration path
and fails with a DuplicateKey condition if key already exists, leaving
the table unchanged. -/
def register (slots : SlotTable) (key : String) (slot : ModelSlot) :
    Except String Unit × SlotTable :=
  if ((slots : List (String × ModelSlot)).lookup key).isSome then
    (Except.error ("DuplicateKey: " ++ key), slots)
  else
    (Except.ok (), slots ++ [(key, slot)])

/-! ## Download Progress Engine (base.py, download_snapshot / emit_progress)

The closure state of download_snapshot consists of known_total and
last_progress; emit_progress is the single entry point through which the
hub progress callback and the directory-polling thread publish. The
float arithmetic of the source is modelled with exact rationals. Only
the published progress integers are tracked; the byte-count status
strings of the unknown-total branch carry no progress value. -/

/-- Closure state of download_snapshot around emit_progress. -/
structure ProgressState where
  known_total : Option Nat
  last_progress : Int
  deriving Repr, DecidableEq

/-- int(start + (end - start) * min(1.0, current / total)) of the
source, with real arithmetic over the rationals (the operands are
nonnegative, so int() truncation is the floor). -/
def mappedProgress (sp ep : Nat) (current total : Nat) : Int :=
  ⌊(sp : ℚ) + ((ep : ℚ) - (sp : ℚ)) * min 1 ((current : ℚ) / (total : ℚ))⌋

/-- emit_progress(current_bytes, total): record a positive explicit
total into known_total; pick total_to_use as the explicit total when
nonzero, else known_total; when a positive total is available, publish
the mapped progress exactly when it differs from last_progress;
otherwise publish nothing (the source only reposts a byte-volume status
string). Returns the new closure state and the published progress, if
any. -/
def emit_progress (sp ep : Nat) (ps : ProgressState) (current : Nat)
    (total : Option Nat) : ProgressState × Option Int :=
  let kt : Option Nat :=
    match total with
    | some t => if 0 < t then some t else ps.known_total
    | none => ps.known_total
  let ttu : Option Nat :=
    match total with
    | some t => if t ≠ 0 then some t else kt
    | none => kt
  match ttu with
  | some t =>
      if 0 < t then
        let mp := mappedProgress sp ep current t
        if mp ≠ ps.last_progress then ({ known_total := kt, last_progress := mp }, some mp)
        else ({ known_total := kt, last_progress := ps.last_progress }, none)
      else ({ known_total := kt, last_progress := ps.last_progress }, none)
  | none => ({ known_total := kt, last_progress := ps.last_progress }, none)

/-- Run a sequence of emit_progress calls (callback-driven or from the
poller thread, in the order the progress lock serializes them),
collecting the published progress values. -/
def run_emits (sp ep : Nat) : ProgressState → List (Nat × Option Nat) →
    ProgressState × List Int
  | ps, [] => (ps, [])
  | ps, c :: cs =>
      let r := emit_progress sp ep ps c.1 c.2
      let rest := run_emits sp ep r.1 cs
      (rest.1, match r.2 with
        | some v => v :: rest.2
        | none => rest.2)

/-! ## Retrying Fetch Helper (utils/hf.py, snapshot_download_with_retry) -/

/-- Classes of exception an attempt can raise: HfHubHTTPError with an
optional response status code, the members of _RETRYABLE_EXCEPTIONS
(requests ConnectionError / Timeout / SSLError / ChunkedEncodingError,
urllib3 HTTPError), and any other exception, which no handler catches. -/
inductive FetchError where
  | http (status : Option Nat)
  | conn
  | timeout
  | ssl
  | chunked
  | urllib3Err
  | other
  deriving Repr, DecidableEq

/-- _should_retry_http_error: retry only when a status code is present
and lies in 500..599. -/
def should_retry_http_error : Option Nat → Bool
  | none => false
  | some s => decide (500 ≤ s) && decide (s < 600)

/-- Whether an error is caught and eligible for retry at a non-final
attempt. HfHubHTTPError is retried exactly when _should_retry_http_error
holds; the _RETRYABLE_EXCEPTIONS members are always eligible; any other
exception propagates uncaught. (In the source the raise condition is
written per handler; for HfHubHTTPError it is
not _should_retry_http_error(error) or attempt == max_attempts, for the
retryable tuple it is attempt == max_attempts, and other exceptions have
no handler: all three coincide with
not retryableNow(e) or attempt == max_attempts.) -/
def retryableNow : FetchError → Bool
  | FetchError.http st => should_retry_http_error st
  | FetchError.conn => true
  | FetchError.timeout => true
  | FetchError.ssl => true
  | FetchError.chunked => true
  | FetchError.urllib3Err => true
  | FetchError.other => false

/-- Result of snapshot_download_with_retry: the returned path, a raised
fetch error, the ValueError for max_attempts < 1, or the assert on the
(unreachable) fall-through after the loop. -/
inductive DownloadOutcome where
  | ok (path : String)
  | raised (e : FetchError)
  | invalidArgs
  | assertFail
  deriving Repr, DecidableEq

/-- The attempt loop of snapshot_download_with_retry. outcomes gives the
result of the underlying hf_snapshot_download at each attempt number; j
gives the random.uniform(0, jitter) draw used after each failed attempt;
remaining is the number of loop iterations left (the wrapper passes
max_attempts, so attempt + remaining = max_attempts + 1 throughout).
Returns the outcome and the list of back-off sleeps performed, in
order. When remaining reaches 0 the loop has fallen through and the
source re-raises last_error (asserting it is set). -/
def retryGo (outcomes : Nat → Except FetchError String) (base : ℚ)
    (j : Nat → ℚ) (max_attempts : Nat) :
    Option FetchError → Nat → Nat → DownloadOutcome × List ℚ
  | last, _, 0 =>
      (match last with
        | some e => DownloadOutcome.raised e
        | none => DownloadOutcome.assertFail, [])
  | _, attempt, r + 1 =>
      match outcomes attempt with
      | Except.ok p => (DownloadOutcome.ok p, [])
      | Except.error e =>
          if (retryableNow e = false) ∨ (attempt = max_attempts) then
            (DownloadOutcome.raised e, [])
          else
            let sleep_for := base * 2 ^ (attempt - 1) + j attempt
            let res := retryGo outcomes base j max_attempts (some e) (attempt + 1) r
            (res.1, sleep_for :: res.2)

/-- snapshot_download_with_retry(max_attempts, base_sleep, jitter):
raises ValueError when max_attempts < 1, otherwise runs attempts
1..max_attempts. -/
def snapshot_download_with_retry (outcomes : Nat → Except FetchError String)
    (base : ℚ) (j : Nat → ℚ) (max_attempts : Nat) :
    DownloadOutcome × List ℚ :=
  if max_attempts < 1 then (DownloadOutcome.invalidArgs, [])
  else retryGo outcomes base j max_attempts none 1 max_attempts

/-! ## Interleaved semantics of concurrent ensure_loaded calls
(base.py, BaseModelWrapper.ensure_loaded)

N callers run ensure_loaded on one instance. Each caller executes, in
order: the lock-free fast-path read of _is_loaded; awaiting the
asyncio.Lock; the re-check of _is_loaded inside the exclusive region;
the load body (modelled as succeeding, which is the scenario the claim
describes); setting _is_loaded and releasing the lock. Steps of
different callers interleave arbitrarily; each step is atomic (the
fast-path read is a single flag read, and the flag is only written while
the lock is held). -/

/-- Program counter of one ensure_loaded caller. -/
inductive PC where
  | check
  | wait
  | recheck
  | doLoad
  | markLoaded
  | done
  deriving Repr, DecidableEq

/-- Shared state of one instance together with the control state of the
n callers: caller program counters, the _is_loaded flag, the holder of
the asyncio.Lock, and the number of executions of the load body. -/
structure LoadSys where
  pcs : List PC
  loaded : Bool
  lock : Option Nat
  loads : Nat
  deriving Repr, DecidableEq

/-- One interleaving step of some caller i. -/
inductive LoadStep : LoadSys → LoadSys → Prop where
  | fastSkip (s : LoadSys) (i : Nat)
      (hpc : s.pcs[i]? = some PC.check) (hl : s.loaded = true) :
      LoadStep s { s with pcs := s.pcs.set i PC.done }
  | fastGo (s : LoadSys) (i : Nat)
      (hpc : s.pcs[i]? = some PC.check) (hl : s.loaded = false) :
      LoadStep s { s with pcs := s.pcs.set i PC.wait }
  | acquire (s : LoadSys) (i : Nat)
      (hpc : s.pcs[i]? = some PC.wait) (hfree : s.lock = none) :
      LoadStep s { s with pcs := s.pcs.set i PC.recheck, lock := some i }
  | recheckSkip (s : LoadSys) (i : Nat)
      (hpc : s.pcs[i]? = some PC.recheck) (hl : s.loaded = true) :
      LoadStep s { s with pcs := s.pcs.set i PC.done, lock := none }
  | recheckGo (s : LoadSys) (i : Nat)
      (hpc : s.pcs[i]? = some PC.recheck) (hl : s.loaded = false) :
      LoadStep s { s with pcs := s.pcs.set i PC.doLoad }
  | runLoad (s : LoadSys) (i : Nat)
      (hpc : s.pcs[i]? = some PC.doLoad) :
      LoadStep s { s with pcs := s.pcs.set i PC.markLoaded, loads := s.loads + 1 }
  | finish (s : LoadSys) (i : Nat)
      (hpc : s.pcs[i]? = some PC.markLoaded) :
      LoadStep s { s with pcs := s.pcs.set i PC.done, loaded := true, lock := none }

/-- Initial state: n callers about to run ensure_loaded on a
freshly-constructed (never loaded) instance. -/
def initSys (n : Nat) : LoadSys :=
  { pcs := List.replicate n PC.check
    loaded := false
    lock := none
    loads := 0 }

/-- States reachable by interleaving the n callers. -/
def Reachable (n : Nat) (s : LoadSys) : Prop :=
  Relation.ReflTransGen LoadStep (initSys n) s

/-- Control locations at which a caller holds the asyncio.Lock. -/
def holdsLock : PC → Bool
  | PC.recheck => true
  | PC.doLoad => true
  | PC.markLoaded => true
  | _ => false

/-- Whether a caller has passed the inner re-check and not yet set the
flag (it is about to run, or has just run, the load body). -/
def isBusy : PC → Bool
  | PC.doLoad => true
  | PC.markLoaded => true
  | _ => false

/-- Whether a caller has run the load body and not yet set the flag. -/
def isMark : PC → Bool
  | PC.markLoaded => true
  | _ => false

/-- Inductive invariant of the interleaved ensure_loaded system: the
load count mirrors the flag plus the callers between load and
flag-write; no caller sits between re-check and flag-write once the flag
is set; at most one caller is inside the exclusive region, none when the
lock is free, and the recorded holder really is inside it; and a caller
can only have returned after the flag was set. -/
structure LoadInv (n : Nat) (s : LoadSys) : Prop where
  len : s.pcs.length = n
  loadsEq : s.loads = (cond s.loaded 1 0) + s.pcs.countP isMark
  busyNotLoaded : s.loaded = true → s.pcs.countP isBusy = 0
  holdLe : s.pcs.countP holdsLock ≤ 1
  freeNoHold : s.lock = none → s.pcs.countP holdsLock = 0
  lockHolder : ∀ i, s.lock = some i →
    ∃ pc, s.pcs[i]? = some pc ∧ holdsLock pc = true
  doneLoaded : ∀ pc ∈ s.pcs, pc = PC.done → s.loaded = true

/-- Concrete attempt outcomes used by the C4 witness: attempt 1 fails
with a connection error, later attempts with HTTP 503. -/
def witnessOutcomes : Nat → Except FetchError String :=
  fun k => if k = 1 then Except.error FetchError.conn
    else Except.error (FetchError.http (some 503))

end ServerCore

namespace ServerCore

/-! ## Claim theorems -/

/-- C5: runtime_status returns a snapshot of the runtime record whose
downloaded flag is reconciled against live on-disk artifact presence at
read time: the snapshot equals the stored record with downloaded
replaced by stored-or-disk, so whenever artifacts exist on disk the
snapshot reports downloaded = true even if no explicit downloaded update
was ever issued through update_runtime. -/
theorem runtime_status_reconciles_disk (s : WrapperState) (disk : Bool) :
    runtime_status disk s =
      { s.runtime with downloaded := s.runtime.downloaded || disk } ∧
    (runtime_status true s).downloaded = true := by
  refine ⟨rfl, ?_⟩
  simp [runtime_status]

/-- C9 counterexample: unload on an already-idle instance is not a no-op
on observable state other than updated_at. On a freshly constructed
wrapper (state idle, is_loaded false, status Idle, concrete unload body
doing nothing), unload changes the status text to Model unloaded. -/
theorem unload_idle_changes_status :
    (initWrapper [] false 0).runtime.state = "idle" ∧
    (initWrapper [] false 0).is_loaded = false ∧
    (unload id false 1 (initWrapper [] false 0)).runtime.status ≠
      (initWrapper [] false 0).runtime.status := by
  refine ⟨rfl, rfl, ?_⟩
  simp [unload, initWrapper, initRuntime, update_runtime]

/-- C9 amended: unload on an already-idle instance (is_loaded false,
state idle, concrete unload body leaving the wrapper state unchanged)
keeps state = idle, is_loaded = false, and last_error and details
unchanged, but resets progress to 0, overwrites status with Model
unloaded, clears server, re-probes downloaded from disk, and refreshes
updated_at. -/
theorem unload_idle_effect (u : WrapperState → WrapperState)
    (disk : Bool) (t : Nat) (s : WrapperState)
    (hu : ∀ w, u w = w) (_hstate : s.runtime.state = "idle")
    (_hnl : s.is_loaded = false) :
    (unload u disk t s).runtime.state = "idle" ∧
    (unload u disk t s).is_loaded = false ∧
    (unload u disk t s).runtime.last_error = s.runtime.last_error ∧
    (unload u disk t s).runtime.details = s.runtime.details ∧
    (unload u disk t s).runtime.progress = 0 ∧
    (unload u disk t s).runtime.status = "Model unloaded" ∧
    (unload u disk t s).runtime.server = none ∧
    (unload u disk t s).runtime.downloaded = disk ∧
    (unload u disk t s).runtime.updated_at = t := by
  simp [unload, hu, update_runtime, clampProgress]

/-- C9 witness for unload_idle_effect at a concrete idle instance. -/
theorem unload_idle_effect_witness :
    (unload id false 1 (initWrapper [] false 0)).runtime.progress = 0 := by
  exact (unload_idle_effect id false 1 (initWrapper [] false 0)
    (fun _ => rfl) rfl rfl).2.2.2.2.1

/-- Helper: the success path of ensure_loaded returns no exception. -/
theorem ensure_loaded_ok_result
    (L : WrapperState → Option String × WrapperState)
    (disk : Bool) (t : Nat) (s u : WrapperState)
    (hnl : s.is_loaded = false)
    (hL : L (loading_update disk t s) = (none, u)) :
    (ensure_loaded L disk t s).1 = none := by
  simp [ensure_loaded, hnl, hL]

/-- Helper: the success path of ensure_loaded marks the instance
loaded. -/
theorem ensure_loaded_ok_loaded
    (L : WrapperState → Option String × WrapperState)
    (disk : Bool) (t : Nat) (s u : WrapperState)
    (hnl : s.is_loaded = false)
    (hL : L (loading_update disk t s) = (none, u)) :
    (ensure_loaded L disk t s).2.is_loaded = true := by
  simp [ensure_loaded, hnl, hL]

/-- C2: when the load body raises inside ensure_loaded, the wrapper
records state = error with the exception message in last_error, leaves
is_loaded = false, re-raises the same exception, and the instance is not
poisoned: a subsequent ensure_loaded enters the load path again and,
when that fresh attempt succeeds, ends loaded. The load body is assumed
not to flip the _is_loaded flag itself (only the wrapper writes it). -/
theorem ensure_loaded_error_path
    (L L2 : WrapperState → Option String × WrapperState)
    (disk disk2 : Bool) (t t2 : Nat) (s : WrapperState)
    (e : String) (s2 : WrapperState)
    (hnl : s.is_loaded = false)
    (hL : L (loading_update disk t s) = (some e, s2))
    (h2 : s2.is_loaded = false) :
    (ensure_loaded L disk t s).1 = some e ∧
    (ensure_loaded L disk t s).2.runtime.state = "error" ∧
    (ensure_loaded L disk t s).2.runtime.last_error = some e ∧
    (ensure_loaded L disk t s).2.runtime.status = "Load failed: " ++ e ∧
    (ensure_loaded L disk t s).2.is_loaded = false ∧
    (∀ u, L2 (loading_update disk2 t2 (ensure_loaded L disk t s).2) = (none, u) →
      (ensure_loaded L2 disk2 t2 (ensure_loaded L disk t s).2).1 = none ∧
      (ensure_loaded L2 disk2 t2 (ensure_loaded L disk t s).2).2.is_loaded = true) := by
  have hrun : ensure_loaded L disk t s =
      (some e,
        { s2 with runtime := (update_runtime s2.runtime t (some "error")
            (some 0) (some ("Load failed: " ++ e)) none none none
            (some (some e))) }) := by
    simp [ensure_loaded, hnl, hL]
  have hnl2 : (ensure_loaded L disk t s).2.is_loaded = false := by
    rw [hrun]; exact h2
  refine ⟨by rw [hrun], by rw [hrun]; simp [update_runtime],
    by rw [hrun]; simp [update_runtime],
    by rw [hrun]; simp [update_runtime], hnl2, ?_⟩
  intro u hL2
  exact ⟨ensure_loaded_ok_result L2 disk2 t2 _ u hnl2 hL2,
    ensure_loaded_ok_loaded L2 disk2 t2 _ u hnl2 hL2⟩

/-- C2 witness for ensure_loaded_error_path at a concrete failing load
followed by a concrete succeeding load. -/
theorem ensure_loaded_error_path_witness :
    (ensure_loaded (fun w => (some "boom", w)) false 1 (initWrapper [] false 0)).1
      = some "boom" := by
  exact (ensure_loaded_error_path (fun w => (some "boom", w))
    (fun w => (none, w)) false false 1 2 (initWrapper [] false 0) "boom"
    (loading_update false 1 (initWrapper [] false 0)) rfl rfl rfl).1

/-- C3: on an instance currently loaded with preference [0],
registry.ensure_loaded with device_ids [1] updates the preference,
performs exactly one unload followed by exactly one load, and leaves
preferred_device_ids = [1]; supplying the current preference, or calling
on an unloaded instance, triggers no unload (the call is delegated to
the instance ensure_loaded directly, and an unloaded instance only
loads). -/
theorem registry_ensure_loaded_device_switch (m : InstModel)
    (h0 : m.preferred_device_ids = [0]) (hl : m.is_loaded = true) :
    (registry_ensure_loaded m (some [1])).preferred_device_ids = [1] ∧
    (registry_ensure_loaded m (some [1])).events =
      m.events ++ [LifeEvent.unloadEv, LifeEvent.loadEv] ∧
    (registry_ensure_loaded m (some [1])).is_loaded = true ∧
    (∀ m2 : InstModel,
      registry_ensure_loaded m2 (some m2.preferred_device_ids) =
        inst_ensure_loaded m2) ∧
    (∀ (m3 : InstModel) (ids : List Nat), m3.is_loaded = false →
      (registry_ensure_loaded m3 (some ids)).events =
        m3.events ++ [LifeEvent.loadEv]) := by
  refine ⟨?_, ?_, ?_, ?_, ?_⟩
  · simp [registry_ensure_loaded, inst_update_device_preferences, h0, hl,
      inst_unload, inst_ensure_loaded]
  · simp [registry_ensure_loaded, inst_update_device_preferences, h0, hl,
      inst_unload, inst_ensure_loaded]
  · simp [registry_ensure_loaded, inst_update_device_preferences, h0, hl,
      inst_unload, inst_ensure_loaded]
  · intro m2
    simp [registry_ensure_loaded, inst_update_device_preferences]
  · intro m3 ids h3
    by_cases hch : ids ≠ m3.preferred_device_ids
    · simp [registry_ensure_loaded, inst_update_device_preferences, hch, h3,
        inst_ensure_loaded]
    · simp only [ne_eq, not_not] at hch
      simp [registry_ensure_loaded, inst_update_device_preferences, hch, h3,
        inst_ensure_loaded]

/-- C3 witness for registry_ensure_loaded_device_switch at a concrete
loaded instance with preference [0]. -/
theorem registry_ensure_loaded_device_switch_witness :
    (registry_ensure_loaded
        { is_loaded := true, preferred_device_ids := [0], events := [] }
        (some [1])).events = [LifeEvent.unloadEv, LifeEvent.loadEv] := by
  exact (registry_ensure_loaded_device_switch
    { is_loaded := true, preferred_device_ids := [0], events := [] }
    rfl rfl).2.1

/-- Helper: lookup in an appended association list whose first part
misses the key. -/
theorem lookup_append_of_none (l1 l2 : List (String × ModelSlot))
    (k : String) (h : l1.lookup k = none) :
    (l1 ++ l2).lookup k = l2.lookup k := by
  induction l1 with
  | nil => rfl
  | cons p l1 ih =>
      obtain ⟨k0, v0⟩ := p
      by_cases hk : k = k0
      · simp [List.lookup, hk] at h
      · have hbeq : (k == k0) = false := by simpa using hk
        simp only [List.lookup, hbeq] at h
        simp only [List.cons_append, List.lookup, hbeq]
        exact ih h

/-- C7: register(key, metadata, factory) is the explicit registration
path: with a fresh key it adds the slot (retrievable under the key),
and with an existing key it fails with a DuplicateKey condition while
leaving the table, and in particular the original slot with its factory
and metadata, unchanged. -/
theorem register_duplicate_key (slots : SlotTable) (key : String)
    (s0 newSlot : ModelSlot) (h : slots.lookup key = some s0) :
    (register slots key newSlot).1 =
      Except.error ("DuplicateKey: " ++ key) ∧
    (register slots key newSlot).2 = slots ∧
    (register slots key newSlot).2.lookup key = some s0 ∧
    (∀ slots2 : SlotTable, slots2.lookup key = none →
      (register slots2 key newSlot).1 = Except.ok () ∧
      (register slots2 key newSlot).2.lookup key = some newSlot) := by
  refine ⟨by simp [register, h], by simp [register, h],
    by simp [register, h], ?_⟩
  intro slots2 h2
  refine ⟨by simp [register, h2], ?_⟩
  simp only [register, h2, Option.isSome_none, Bool.false_eq_true, if_false]
  rw [lookup_append_of_none _ _ _ h2]
  simp [List.lookup]

/-- C7 witness for register_duplicate_key at a concrete one-entry
table. -/
theorem register_duplicate_key_witness :
    (register
        [("qwen", { metadata := { identifier := "q", task := "chat",
                                  description := "", format := "" },
                    factory := 0, inst := none })]
        "qwen"
        { metadata := { identifier := "other", task := "chat",
                        description := "", format := "" },
          factory := 1, inst := none }).1 =
      Except.error ("DuplicateKey: " ++ "qwen") := by
  exact (register_duplicate_key _ "qwen" _ _ (by rfl)).1

/-- C10: registry.unload on a registered key whose slot instance was
never created returns without error and leaves the table unchanged (the
factory is not invoked and the cached instance remains none); unload of
an unregistered key raises the Unknown-model-key lookup error. -/
theorem registry_unload_uncreated (slots : SlotTable)
    (key missing : String) (slot : ModelSlot)
    (h : slots.lookup key = some slot) (hi : slot.inst = none)
    (hm : slots.lookup missing = none) :
    registry_unload slots key = Except.ok slots ∧
    registry_unload slots missing =
      Except.error ("Unknown model key: " ++ missing) := by
  constructor
  · simp [registry_unload, h, hi]
  · simp [registry_unload, hm]

/-- C10 witness for registry_unload_uncreated at a concrete one-entry
table with an uncreated instance. -/
theorem registry_unload_uncreated_witness :
    registry_unload
        [("qwen", { metadata := { identifier := "q", task := "chat",
                                  description := "", format := "" },
                    factory := 0, inst := none })]
        "qwen" =
      Except.ok
        [("qwen", { metadata := { identifier := "q", task := "chat",
                                  description := "", format := "" },
                    factory := 0, inst := none })] := by
  exact (registry_unload_uncreated _ "qwen" "missing" _ (by rfl) rfl
    (by rfl)).1

/-- Helper: concrete mapped progress value of the C8 scenario
(total 1000 bytes, sub-range 10..90, current 500). -/
theorem mapped_10_90_500_1000 : mappedProgress 10 90 500 1000 = 50 := by
  unfold mappedProgress
  norm_num [min_def]

/-- Helper: concrete mapped progress (sub-range 5..90, 512 of 1024). -/
theorem mapped_5_90_512_1024 : mappedProgress 5 90 512 1024 = 47 := by
  unfold mappedProgress
  norm_num [min_def, Int.floor_eq_iff]

/-- Helper: concrete mapped progress (sub-range 5..90, 256 of 1024). -/
theorem mapped_5_90_256_1024 : mappedProgress 5 90 256 1024 = 26 := by
  unfold mappedProgress
  norm_num [min_def, Int.floor_eq_iff]

/-- C8: with a resolved positive total T, a reported byte count current
is mapped to int(start + (end - start) * min(1, current / T)); a value
is published exactly when this mapped integer differs from
last_progress, and then last_progress becomes the published value. In
particular with total 1000 and sub-range 10..90, reporting current = 500
publishes progress 50. -/
theorem emit_progress_maps_into_subrange (sp ep : Nat) (ps : ProgressState)
    (current T : Nat) (hk : ps.known_total = some T) (hT : 0 < T) :
    emit_progress sp ep ps current none =
      (if mappedProgress sp ep current T = ps.last_progress
       then (ps, none)
       else
        ({ known_total := some T,
           last_progress := mappedProgress sp ep current T },
         some (mappedProgress sp ep current T))) ∧
    (run_emits 10 90 { known_total := some 1000, last_progress := 10 }
        [(500, none)]).2 = [50] := by
  constructor
  · obtain ⟨kt0, lp0⟩ := ps
    have hk2 : kt0 = some T := hk
    subst hk2
    simp only [emit_progress, hT, if_true]
    by_cases hm : mappedProgress sp ep current T = lp0
    · simp [hm]
    · simp [hm]
  · simp [run_emits, emit_progress, mapped_10_90_500_1000]

/-- C8 witness for emit_progress_maps_into_subrange at the concrete
scenario of the claim. -/
theorem emit_progress_maps_into_subrange_witness :
    emit_progress 10 90 { known_total := some 1000, last_progress := 10 }
        500 none =
      ({ known_total := some 1000, last_progress := 50 }, some 50) := by
  have h := (emit_progress_maps_into_subrange 10 90
    { known_total := some 1000, last_progress := 10 } 500 1000 rfl
    (by norm_num)).1
  rw [h, mapped_10_90_500_1000]
  simp

/-- C6 counterexample: the published progress can regress. With
known_total 1024, sub-range 5..90 and last_progress 5, the out-of-order
byte counts 512 then 256 publish 47 then 26: the second published value
is smaller than the first, so the published sequence is not
monotonically non-decreasing. The source publishes whenever the mapped
value differs from the last one, not only when it increases. -/
theorem emit_progress_can_regress :
    (run_emits 5 90 { known_total := some 1024, last_progress := 5 }
        [(512, none), (256, none)]).2 = [47, 26] ∧
    ¬ List.Chain' (fun a b : Int => a ≤ b)
        ((run_emits 5 90 { known_total := some 1024, last_progress := 5 }
            [(512, none), (256, none)]).2) := by
  have h : (run_emits 5 90 { known_total := some 1024, last_progress := 5 }
      [(512, none), (256, none)]).2 = [47, 26] := by
    simp [run_emits, emit_progress, mapped_5_90_512_1024,
      mapped_5_90_256_1024]
  refine ⟨h, ?_⟩
  rw [h]
  simp [List.chain'_cons]

/-- Helper: how one emit_progress call relates the published value to
the closure state: no publication leaves last_progress unchanged, and a
publication carries a value different from last_progress which becomes
the new last_progress. -/
theorem emit_progress_publish_shape (sp ep : Nat) (ps : ProgressState)
    (c : Nat) (t : Option Nat) :
    ((emit_progress sp ep ps c t).2 = none ∧
      (emit_progress sp ep ps c t).1.last_progress = ps.last_progress) ∨
    (∃ v, (emit_progress sp ep ps c t).2 = some v ∧
      v ≠ ps.last_progress ∧
      (emit_progress sp ep ps c t).1.last_progress = v) := by
  rcases t with _ | tv
  · rcases hkt : ps.known_total with _ | T
    · left
      simp [emit_progress, hkt]
    · by_cases hT : 0 < T
      · by_cases hm : mappedProgress sp ep c T = ps.last_progress
        · left
          simp [emit_progress, hkt, hT, hm]
        · right
          refine ⟨mappedProgress sp ep c T, ?_, hm, ?_⟩ <;>
            simp [emit_progress, hkt, hT, hm]
      · left
        simp [emit_progress, hkt, hT]
  · by_cases h0 : tv = 0
    · subst h0
      rcases hkt : ps.known_total with _ | T
      · left
        simp [emit_progress, hkt]
      · by_cases hT : 0 < T
        · by_cases hm : mappedProgress sp ep c T = ps.last_progress
          · left
            simp [emit_progress, hkt, hT, hm]
          · right
            refine ⟨mappedProgress sp ep c T, ?_, hm, ?_⟩ <;>
              simp [emit_progress, hkt, hT, hm]
        · left
          simp [emit_progress, hkt, hT]
    · have htv : 0 < tv := Nat.pos_of_ne_zero h0
      by_cases hm : mappedProgress sp ep c tv = ps.last_progress
      · left
        simp [emit_progress, h0, htv, hm]
      · right
        refine ⟨mappedProgress sp ep c tv, ?_, hm, ?_⟩ <;>
          simp [emit_progress, h0, htv, hm]

/-- C6 amended: all publication goes through the lock-guarded
emit_progress, which deduplicates: every published progress value
differs from the previously published one (with last_progress seeded by
the caller); monotonicity is not guaranteed (see
emit_progress_can_regress). -/
theorem emit_progress_published_dedup (sp ep : Nat) (ps : ProgressState)
    (calls : List (Nat × Option Nat)) :
    List.Chain' (fun a b => a ≠ b)
      (ps.last_progress :: (run_emits sp ep ps calls).2) := by
  induction calls generalizing ps with
  | nil => simp [run_emits]
  | cons c cs ih =>
      rcases emit_progress_publish_shape sp ep ps c.1 c.2 with
        ⟨hpub, hlast⟩ | ⟨v, hpub, hne, hlast⟩
      · have hrun : (run_emits sp ep ps (c :: cs)).2 =
            (run_emits sp ep (emit_progress sp ep ps c.1 c.2).1 cs).2 := by
          simp [run_emits, hpub]
        rw [hrun, ← hlast]
        exact ih (emit_progress sp ep ps c.1 c.2).1
      · have hrun : (run_emits sp ep ps (c :: cs)).2 =
            v :: (run_emits sp ep (emit_progress sp ep ps c.1 c.2).1 cs).2 := by
          simp [run_emits, hpub]
        rw [hrun]
        rw [List.chain'_cons]
        refine ⟨Ne.symm hne, ?_⟩
        have := ih (emit_progress sp ep ps c.1 c.2).1
        rwa [hlast] at this

/-- Helper: an attempt whose error is non-retryable, or which is the
final attempt, re-raises that error at once with no further sleep. -/
theorem retryGo_stop (outcomes : Nat → Except FetchError String)
    (base : ℚ) (j : Nat → ℚ) (max_attempts : Nat)
    (last : Option FetchError) (attempt r : Nat) (e : FetchError)
    (ho : outcomes attempt = Except.error e)
    (hstop : (retryableNow e = false) ∨ (attempt = max_attempts)) :
    retryGo outcomes base j max_attempts last attempt (r + 1) =
      (DownloadOutcome.raised e, []) := by
  simp only [retryGo, ho]
  rw [if_pos hstop]

/-- Helper: a failed attempt with a retryable error before the final
attempt sleeps base * 2 ^ (attempt - 1) + jitter and continues. -/
theorem retryGo_continue (outcomes : Nat → Except FetchError String)
    (base : ℚ) (j : Nat → ℚ) (max_attempts : Nat)
    (last : Option FetchError) (attempt r : Nat) (e : FetchError)
    (ho : outcomes attempt = Except.error e)
    (hre : retryableNow e = true) (hne : attempt ≠ max_attempts) :
    retryGo outcomes base j max_attempts last attempt (r + 1) =
      ((retryGo outcomes base j max_attempts (some e) (attempt + 1) r).1,
       (base * 2 ^ (attempt - 1) + j attempt) ::
         (retryGo outcomes base j max_attempts (some e) (attempt + 1) r).2) := by
  have hcond : ¬ ((retryableNow e = false) ∨ (attempt = max_attempts)) := by
    simp [hre, hne]
  simp only [retryGo, ho]
  rw [if_neg hcond]

/-- Helper: a run in which every attempt from the current one up to
max_attempts fails with a retryable error re-raises the error of the
final attempt and performs one back-off sleep per non-final attempt. -/
theorem retryGo_all_fail (outcomes : Nat → Except FetchError String)
    (base : ℚ) (j : Nat → ℚ) (max_attempts : Nat) (r : Nat) :
    ∀ (attempt : Nat) (last : Option FetchError),
      1 ≤ attempt → attempt + r = max_attempts + 1 → 1 ≤ r →
      (∀ k, attempt ≤ k → k ≤ max_attempts →
        ∃ e, outcomes k = Except.error e ∧ retryableNow e = true) →
      ∃ elast, outcomes max_attempts = Except.error elast ∧
        retryGo outcomes base j max_attempts last attempt r =
          (DownloadOutcome.raised elast,
           (List.range (max_attempts - attempt)).map
             (fun i => base * 2 ^ (attempt - 1 + i) + j (attempt + i))) := by
  induction r with
  | zero =>
      intro attempt last _ _ hr _
      omega
  | succ r ih =>
      intro attempt last h1 hsum _ hfail
      obtain ⟨e, he, hre⟩ := hfail attempt (le_refl _) (by omega)
      by_cases hmax : attempt = max_attempts
      · subst hmax
        refine ⟨e, he, ?_⟩
        rw [retryGo_stop outcomes base j attempt last attempt r e he
          (Or.inr rfl)]
        simp
      · have hr1 : 1 ≤ r := by omega
        obtain ⟨elast, helast, hrec⟩ := ih (attempt + 1) (some e)
          (by omega) (by omega) hr1
          (fun k hk1 hk2 => hfail k (by omega) hk2)
        refine ⟨elast, helast, ?_⟩
        rw [retryGo_continue outcomes base j max_attempts last attempt r e
          he hre hmax, hrec]
        have hn : max_attempts - attempt = (max_attempts - (attempt + 1)) + 1 := by
          omega
        rw [hn, List.range_succ_eq_map, List.map_cons, List.map_map]
        refine congrArg₂ Prod.mk rfl ?_
        refine congrArg₂ List.cons (by simp) ?_
        refine List.map_congr_left ?_
        intro i _
        have h2 : attempt - 1 + (i + 1) = attempt + 1 - 1 + i := by omega
        have h3 : attempt + (i + 1) = attempt + 1 + i := by omega
        simp only [Function.comp]
        rw [h2, h3]

/-- C4: snapshot_download_with_retry (with max_attempts at least 1 and
each jitter draw in 0..jitter) (a) raises a first-attempt error
immediately, with no retry and no sleep, whenever that error is not
retryable; (b) an HTTP error with a status outside 500..599 (in
particular any 4xx) is not retryable; (c) the retryable errors are
exactly connection errors, timeouts, TLS errors, chunked-transfer
errors, urllib3 transport errors, and HTTP errors with a 5xx status;
(d) when every attempt up to max_attempts fails with a retryable error,
the error observed at the last attempt is re-raised unchanged, and the
sleep taken after non-final attempt k is base * 2 ^ (k - 1) + j k, which
lies between base * 2 ^ (k - 1) and base * 2 ^ (k - 1) + jitter. -/
theorem snapshot_retry_spec (outcomes : Nat → Except FetchError String)
    (base jitter : ℚ) (j : Nat → ℚ) (max_attempts : Nat)
    (hmax : 1 ≤ max_attempts)
    (hj : ∀ k, 0 ≤ j k ∧ j k ≤ jitter) :
    (∀ e, outcomes 1 = Except.error e → retryableNow e = false →
      snapshot_download_with_retry outcomes base j max_attempts =
        (DownloadOutcome.raised e, [])) ∧
    (∀ st : Nat, st < 500 ∨ 600 ≤ st →
      retryableNow (FetchError.http (some st)) = false) ∧
    (∀ e, retryableNow e = true →
      e = FetchError.conn ∨ e = FetchError.timeout ∨ e = FetchError.ssl ∨
      e = FetchError.chunked ∨ e = FetchError.urllib3Err ∨
      ∃ st, e = FetchError.http (some st) ∧ 500 ≤ st ∧ st < 600) ∧
    ((∀ k, 1 ≤ k → k ≤ max_attempts →
        ∃ e, outcomes k = Except.error e ∧ retryableNow e = true) →
      ∃ elast, outcomes max_attempts = Except.error elast ∧
        snapshot_download_with_retry outcomes base j max_attempts =
          (DownloadOutcome.raised elast,
           (List.range (max_attempts - 1)).map
             (fun i => base * 2 ^ i + j (i + 1))) ∧
        ∀ s ∈ (snapshot_download_with_retry outcomes base j max_attempts).2,
          ∃ k, 1 ≤ k ∧ s = base * 2 ^ (k - 1) + j k ∧
            base * 2 ^ (k - 1) ≤ s ∧ s ≤ base * 2 ^ (k - 1) + jitter) := by
  obtain ⟨m, rfl⟩ : ∃ m, max_attempts = m + 1 :=
    ⟨max_attempts - 1, by omega⟩
  have hwrap : snapshot_download_with_retry outcomes base j (m + 1) =
      retryGo outcomes base j (m + 1) none 1 (m + 1) := by
    simp [snapshot_download_with_retry]
  refine ⟨?_, ?_, ?_, ?_⟩
  · intro e he hnre
    rw [hwrap]
    exact retryGo_stop outcomes base j (m + 1) none 1 m e he (Or.inl hnre)
  · intro st hst
    rcases hst with h | h
    · simp [retryableNow, should_retry_http_error]
      omega
    · simp [retryableNow, should_retry_http_error]
      omega
  · intro e hre
    cases e with
    | http st =>
        cases st with
        | none => simp [retryableNow, should_retry_http_error] at hre
        | some v =>
            simp only [retryableNow, should_retry_http_error,
              Bool.and_eq_true, decide_eq_true_eq] at hre
            exact Or.inr (Or.inr (Or.inr (Or.inr (Or.inr
              ⟨v, rfl, hre.1, hre.2⟩))))
    | conn => exact Or.inl rfl
    | timeout => exact Or.inr (Or.inl rfl)
    | ssl => exact Or.inr (Or.inr (Or.inl rfl))
    | chunked => exact Or.inr (Or.inr (Or.inr (Or.inl rfl)))
    | urllib3Err => exact Or.inr (Or.inr (Or.inr (Or.inr (Or.inl rfl))))
    | other => simp [retryableNow] at hre
  · intro hfail
    obtain ⟨elast, helast, hrun⟩ := retryGo_all_fail outcomes base j
      (m + 1) (m + 1) 1 none (le_refl 1) (by omega) (by omega) hfail
    refine ⟨elast, helast, ?_, ?_⟩
    · rw [hwrap, hrun]
      refine congrArg₂ Prod.mk rfl ?_
      refine List.map_congr_left ?_
      intro i _
      have h2 : (1 : Nat) - 1 + i = i := by omega
      have h3 : (1 : Nat) + i = i + 1 := by omega
      rw [h2, h3]
    · intro s hs
      rw [hwrap, hrun] at hs
      simp only [List.mem_map, List.mem_range] at hs
      obtain ⟨i, _, hi⟩ := hs
      refine ⟨i + 1, by omega, ?_, ?_, ?_⟩
      · rw [← hi]
        have : (1 : Nat) - 1 + i = i + 1 - 1 := by omega
        rw [this]
        have : (1 : Nat) + i = i + 1 := by omega
        rw [this]
      · rw [← hi]
        have h0 : 0 ≤ j (1 + i) := (hj (1 + i)).1
        have : (1 : Nat) - 1 + i = i + 1 - 1 := by omega
        rw [this]
        have h4 : (1 : Nat) + i = i + 1 := by omega
        rw [h4]
        have := (hj (i + 1)).1
        linarith
      · rw [← hi]
        have : (1 : Nat) - 1 + i = i + 1 - 1 := by omega
        rw [this]
        have h4 : (1 : Nat) + i = i + 1 := by omega
        rw [h4]
        have := (hj (i + 1)).2
        linarith

/-- C4 witness for snapshot_retry_spec: two attempts, the first failing
with a connection error and the second with HTTP 503 (both retryable),
re-raise the last error (the 503) after one exponential back-off sleep
of base * 2 ^ 0 = 3/2 (jitter draws all 0). -/
theorem snapshot_retry_spec_witness :
    snapshot_download_with_retry witnessOutcomes (3 / 2) (fun _ => 0) 2 =
      (DownloadOutcome.raised (FetchError.http (some 503)), [3 / 2]) := by
  have h := snapshot_retry_spec witnessOutcomes
    (3 / 2) (1 / 2) (fun _ => 0) 2 (by norm_num)
    (fun _ => ⟨le_refl 0, by norm_num⟩)
  have hfail : ∀ k, 1 ≤ k → k ≤ 2 →
      ∃ e, witnessOutcomes k = Except.error e ∧ retryableNow e = true := by
    intro k h1 h2
    interval_cases k
    · exact ⟨FetchError.conn, rfl, rfl⟩
    · exact ⟨FetchError.http (some 503), rfl, rfl⟩
  obtain ⟨elast, helast, hrun, _⟩ := h.2.2.2 hfail
  have helast2 : elast = FetchError.http (some 503) := by
    have h2 : witnessOutcomes 2 =
        Except.error (FetchError.http (some 503)) := rfl
    rw [h2] at helast
    exact (Except.error.inj helast).symm
  rw [hrun, helast2]
  norm_num [List.range_succ]

/-- Helper: countP over a point update, phrased through an optional
lookup of the overwritten element. -/
theorem countP_set_shift {l : List PC} {i : Nat} {a : PC}
    (p : PC → Bool) (b : PC) (h : l[i]? = some a) :
    (l.set i b).countP p =
      (l.countP p - (if p a = true then 1 else 0)) +
        (if p b = true then 1 else 0) := by
  obtain ⟨hlt, hget⟩ := List.getElem?_eq_some.mp h
  rw [List.countP_set p l i b hlt, hget]

/-- Helper: an element found by index contributes to countP. -/
theorem one_le_countP {l : List PC} {i : Nat} {a : PC} {p : PC → Bool}
    (h : l[i]? = some a) (hp : p a = true) : 1 ≤ l.countP p :=
  List.countP_pos_iff.mpr ⟨a, List.getElem?_mem h, hp⟩

/-- Helper: callers between load and flag-write are inside the
exclusive region. -/
theorem countP_isMark_le_holdsLock (l : List PC) :
    l.countP isMark ≤ l.countP holdsLock :=
  List.countP_mono_left (fun x _ hx => by
    cases x <;> simp_all [isMark, holdsLock])

/-- Helper: busy callers are inside the exclusive region. -/
theorem countP_isBusy_le_holdsLock (l : List PC) :
    l.countP isBusy ≤ l.countP holdsLock :=
  List.countP_mono_left (fun x _ hx => by
    cases x <;> simp_all [isBusy, holdsLock])

/-- Helper: callers between load and flag-write are busy. -/
theorem countP_isMark_le_isBusy (l : List PC) :
    l.countP isMark ≤ l.countP isBusy :=
  List.countP_mono_left (fun x _ hx => by
    cases x <;> simp_all [isMark, isBusy])

/-- Helper: counting over the all-check initial pool. -/
theorem countP_replicate_check_eq_zero (n : Nat) (p : PC → Bool)
    (hp : p PC.check = false) :
    (List.replicate n PC.check).countP p = 0 :=
  List.countP_eq_zero.mpr (fun a ha => by
    rw [List.eq_of_mem_replicate ha, hp]
    simp)

/-- Helper: the invariant holds initially. -/
theorem loadInv_init (n : Nat) : LoadInv n (initSys n) := by
  refine ⟨?_, ?_, ?_, ?_, ?_, ?_, ?_⟩
  · simp [initSys]
  · show (0 : Nat) = cond false 1 0 +
      (List.replicate n PC.check).countP isMark
    rw [countP_replicate_check_eq_zero n isMark rfl]
    rfl
  · intro h
    cases h
  · show (List.replicate n PC.check).countP holdsLock ≤ 1
    rw [countP_replicate_check_eq_zero n holdsLock rfl]
    omega
  · intro _
    exact countP_replicate_check_eq_zero n holdsLock rfl
  · intro k hk
    cases hk
  · intro pc hmem hdone
    rw [List.eq_of_mem_replicate hmem] at hdone
    exact absurd hdone (by decide)

/-- Helper: the invariant is preserved by every interleaving step. -/
theorem loadInv_step {n : Nat} {s s2 : LoadSys} (hinv : LoadInv n s)
    (hstep : LoadStep s s2) : LoadInv n s2 := by
  obtain ⟨len, loadsEq, busyNotLoaded, holdLe, freeNoHold, lockHolder,
    doneLoaded⟩ := hinv
  cases hstep with
  | fastSkip i hpc hl =>
      refine ⟨?_, ?_, ?_, ?_, ?_, ?_, ?_⟩
      · simpa using len
      · show s.loads = cond s.loaded 1 0 +
          (s.pcs.set i PC.done).countP isMark
        rw [countP_set_shift isMark PC.done hpc]
        simpa [isMark] using loadsEq
      · intro h2
        show (s.pcs.set i PC.done).countP isBusy = 0
        rw [countP_set_shift isBusy PC.done hpc]
        simpa [isBusy] using busyNotLoaded h2
      · show (s.pcs.set i PC.done).countP holdsLock ≤ 1
        rw [countP_set_shift holdsLock PC.done hpc]
        simpa [holdsLock] using holdLe
      · intro h2
        show (s.pcs.set i PC.done).countP holdsLock = 0
        rw [countP_set_shift holdsLock PC.done hpc]
        simpa [holdsLock] using freeNoHold h2
      · intro k hk
        obtain ⟨pck, hpck, hhk⟩ := lockHolder k hk
        have hne : i ≠ k := by
          intro he
          subst he
          rw [hpc] at hpck
          rw [← Option.some.inj hpck] at hhk
          exact absurd hhk (by decide)
        exact ⟨pck, by rw [List.getElem?_set_ne hne]; exact hpck, hhk⟩
      · intro pc _ _
        exact hl
  | fastGo i hpc hl =>
      refine ⟨?_, ?_, ?_, ?_, ?_, ?_, ?_⟩
      · simpa using len
      · show s.loads = cond s.loaded 1 0 +
          (s.pcs.set i PC.wait).countP isMark
        rw [countP_set_shift isMark PC.wait hpc]
        simpa [isMark] using loadsEq
      · intro h2
        show (s.pcs.set i PC.wait).countP isBusy = 0
        rw [countP_set_shift isBusy PC.wait hpc]
        simpa [isBusy] using busyNotLoaded h2
      · show (s.pcs.set i PC.wait).countP holdsLock ≤ 1
        rw [countP_set_shift holdsLock PC.wait hpc]
        simpa [holdsLock] using holdLe
      · intro h2
        show (s.pcs.set i PC.wait).countP holdsLock = 0
        rw [countP_set_shift holdsLock PC.wait hpc]
        simpa [holdsLock] using freeNoHold h2
      · intro k hk
        obtain ⟨pck, hpck, hhk⟩ := lockHolder k hk
        have hne : i ≠ k := by
          intro he
          subst he
          rw [hpc] at hpck
          rw [← Option.some.inj hpck] at hhk
          exact absurd hhk (by decide)
        exact ⟨pck, by rw [List.getElem?_set_ne hne]; exact hpck, hhk⟩
      · intro pc hmem hdone
        rcases List.mem_or_eq_of_mem_set hmem with hin | hb
        · exact doneLoaded pc hin hdone
        · rw [hb] at hdone
          exact absurd hdone (by decide)
  | acquire i hpc hfree =>
      refine ⟨?_, ?_, ?_, ?_, ?_, ?_, ?_⟩
      · simpa using len
      · show s.loads = cond s.loaded 1 0 +
          (s.pcs.set i PC.recheck).countP isMark
        rw [countP_set_shift isMark PC.recheck hpc]
        simpa [isMark] using loadsEq
      · intro h2
        show (s.pcs.set i PC.recheck).countP isBusy = 0
        rw [countP_set_shift isBusy PC.recheck hpc]
        simpa [isBusy] using busyNotLoaded h2
      · show (s.pcs.set i PC.recheck).countP holdsLock ≤ 1
        rw [countP_set_shift holdsLock PC.recheck hpc]
        have h0 := freeNoHold hfree
        simp [holdsLock, h0]
      · intro h2
        exact absurd h2 (by simp)
      · intro k hk
        have hik : i = k := Option.some.inj hk
        subst hik
        refine ⟨PC.recheck, ?_, rfl⟩
        have hlt : i < s.pcs.length := (List.getElem?_eq_some.mp hpc).1
        exact List.getElem?_set_self hlt
      · intro pc hmem hdone
        rcases List.mem_or_eq_of_mem_set hmem with hin | hb
        · exact doneLoaded pc hin hdone
        · rw [hb] at hdone
          exact absurd hdone (by decide)
  | recheckSkip i hpc hl =>
      refine ⟨?_, ?_, ?_, ?_, ?_, ?_, ?_⟩
      · simpa using len
      · show s.loads = cond s.loaded 1 0 +
          (s.pcs.set i PC.done).countP isMark
        rw [countP_set_shift isMark PC.done hpc]
        simpa [isMark] using loadsEq
      · intro _
        show (s.pcs.set i PC.done).countP isBusy = 0
        rw [countP_set_shift isBusy PC.done hpc]
        simpa [isBusy] using busyNotLoaded hl
      · show (s.pcs.set i PC.done).countP holdsLock ≤ 1
        rw [countP_set_shift holdsLock PC.done hpc]
        norm_num [holdsLock]
        omega
      · intro _
        show (s.pcs.set i PC.done).countP holdsLock = 0
        rw [countP_set_shift holdsLock PC.done hpc]
        have h1 := one_le_countP hpc (rfl : holdsLock PC.recheck = true)
        norm_num [holdsLock]
        omega
      · intro k hk
        exact absurd hk (by simp)
      · intro pc _ _
        exact hl
  | recheckGo i hpc hl =>
      refine ⟨?_, ?_, ?_, ?_, ?_, ?_, ?_⟩
      · simpa using len
      · show s.loads = cond s.loaded 1 0 +
          (s.pcs.set i PC.doLoad).countP isMark
        rw [countP_set_shift isMark PC.doLoad hpc]
        simpa [isMark] using loadsEq
      · intro h2
        have h3 : s.loaded = true := h2
        rw [hl] at h3
        exact absurd h3 (by decide)
      · show (s.pcs.set i PC.doLoad).countP holdsLock ≤ 1
        rw [countP_set_shift holdsLock PC.doLoad hpc]
        have h1 := one_le_countP hpc (rfl : holdsLock PC.recheck = true)
        norm_num [holdsLock]
        omega
      · intro h2
        have h0 := freeNoHold h2
        have h1 := one_le_countP hpc (rfl : holdsLock PC.recheck = true)
        omega
      · intro k hk
        have hk2 : s.lock = some k := hk
        by_cases hik : i = k
        · subst hik
          refine ⟨PC.doLoad, ?_, rfl⟩
          have hlt : i < s.pcs.length := (List.getElem?_eq_some.mp hpc).1
          exact List.getElem?_set_self hlt
        · obtain ⟨pck, hpck, hhk⟩ := lockHolder k hk2
          exact ⟨pck, by rw [List.getElem?_set_ne hik]; exact hpck, hhk⟩
      · intro pc hmem hdone
        rcases List.mem_or_eq_of_mem_set hmem with hin | hb
        · exact doneLoaded pc hin hdone
        · rw [hb] at hdone
          exact absurd hdone (by decide)
  | runLoad i hpc =>
      refine ⟨?_, ?_, ?_, ?_, ?_, ?_, ?_⟩
      · simpa using len
      · show s.loads + 1 = cond s.loaded 1 0 +
          (s.pcs.set i PC.markLoaded).countP isMark
        rw [countP_set_shift isMark PC.markLoaded hpc]
        norm_num [isMark]
        omega
      · intro h2
        have h3 : s.loaded = true := h2
        have h0 := busyNotLoaded h3
        have h1 := one_le_countP hpc (rfl : isBusy PC.doLoad = true)
        omega
      · show (s.pcs.set i PC.markLoaded).countP holdsLock ≤ 1
        rw [countP_set_shift holdsLock PC.markLoaded hpc]
        have h1 := one_le_countP hpc (rfl : holdsLock PC.doLoad = true)
        norm_num [holdsLock]
        omega
      · intro h2
        have h0 := freeNoHold h2
        have h1 := one_le_countP hpc (rfl : holdsLock PC.doLoad = true)
        omega
      · intro k hk
        have hk2 : s.lock = some k := hk
        by_cases hik : i = k
        · subst hik
          refine ⟨PC.markLoaded, ?_, rfl⟩
          have hlt : i < s.pcs.length := (List.getElem?_eq_some.mp hpc).1
          exact List.getElem?_set_self hlt
        · obtain ⟨pck, hpck, hhk⟩ := lockHolder k hk2
          exact ⟨pck, by rw [List.getElem?_set_ne hik]; exact hpck, hhk⟩
      · intro pc hmem hdone
        rcases List.mem_or_eq_of_mem_set hmem with hin | hb
        · exact doneLoaded pc hin hdone
        · rw [hb] at hdone
          exact absurd hdone (by decide)
  | finish i hpc =>
      have h1m := one_le_countP hpc (rfl : isMark PC.markLoaded = true)
      have h1b := one_le_countP hpc (rfl : isBusy PC.markLoaded = true)
      have h1h := one_le_countP hpc (rfl : holdsLock PC.markLoaded = true)
      have hml := countP_isMark_le_holdsLock s.pcs
      have hbl := countP_isBusy_le_holdsLock s.pcs
      have hl0 : s.loaded = false := by
        cases hcase : s.loaded
        · rfl
        · have h0 := busyNotLoaded hcase
          omega
      refine ⟨?_, ?_, ?_, ?_, ?_, ?_, ?_⟩
      · simpa using len
      · show s.loads = cond true 1 0 +
          (s.pcs.set i PC.done).countP isMark
        rw [countP_set_shift isMark PC.done hpc]
        rw [hl0] at loadsEq
        simp only [Bool.cond_false, Nat.zero_add] at loadsEq
        norm_num [isMark]
        omega
      · intro _
        show (s.pcs.set i PC.done).countP isBusy = 0
        rw [countP_set_shift isBusy PC.done hpc]
        norm_num [isBusy]
        omega
      · show (s.pcs.set i PC.done).countP holdsLock ≤ 1
        rw [countP_set_shift holdsLock PC.done hpc]
        norm_num [holdsLock]
        omega
      · intro _
        show (s.pcs.set i PC.done).countP holdsLock = 0
        rw [countP_set_shift holdsLock PC.done hpc]
        norm_num [holdsLock]
        omega
      · intro k hk
        exact absurd hk (by simp)
      · intro pc _ _
        rfl

/-- Helper: every reachable state satisfies the invariant. -/
theorem loadInv_reachable {n : Nat} {s : LoadSys} (h : Reachable n s) :
    LoadInv n s := by
  induction h with
  | refl => exact loadInv_init n
  | tail _ hstep ih => exact loadInv_step ih hstep

/-- C1: under arbitrary interleaving of N concurrent ensure_loaded
callers on a fresh instance (loads succeeding), the load body executes
at most once before is_loaded becomes true — in every reachable state
the load count is at most 1 — and when all callers have returned (N at
least 1) the load body has executed exactly once. -/
theorem ensure_loaded_single_load (n : Nat) (s : LoadSys)
    (h : Reachable n s) :
    s.loads ≤ 1 ∧
    ((∀ pc ∈ s.pcs, pc = PC.done) → 1 ≤ n → s.loads = 1) := by
  obtain ⟨len, loadsEq, busyNotLoaded, holdLe, _, _, doneLoaded⟩ :=
    loadInv_reachable h
  have hml := countP_isMark_le_holdsLock s.pcs
  have hmb := countP_isMark_le_isBusy s.pcs
  constructor
  · cases hcase : s.loaded
    · rw [hcase] at loadsEq
      simp only [Bool.cond_false, Nat.zero_add] at loadsEq
      omega
    · have h0 := busyNotLoaded hcase
      rw [hcase] at loadsEq
      simp only [Bool.cond_true] at loadsEq
      omega
  · intro hall hn
    have hne : s.pcs ≠ [] := by
      intro he
      rw [he] at len
      simp at len
      omega
    obtain ⟨pc0, hmem⟩ := List.exists_mem_of_ne_nil s.pcs hne
    have hload : s.loaded = true := doneLoaded pc0 hmem (hall pc0 hmem)
    have h0 := busyNotLoaded hload
    rw [hload] at loadsEq
    simp only [Bool.cond_true] at loadsEq
    omega

/-- C1 witness for ensure_loaded_single_load: an explicit complete
interleaving of two callers (caller 0 takes the lock and loads, caller 1
then skips on the fast path) reaches the all-done state with exactly one
load. -/
theorem ensure_loaded_single_load_witness :
    ({ pcs := [PC.done, PC.done], loaded := true, lock := none,
       loads := 1 } : LoadSys).loads = 1 := by
  have h1 : LoadStep (initSys 2)
      { pcs := [PC.wait, PC.check], loaded := false, lock := none,
        loads := 0 } :=
    LoadStep.fastGo (initSys 2) 0 rfl rfl
  have h2 : LoadStep
      ({ pcs := [PC.wait, PC.check], loaded := false, lock := none,
         loads := 0 } : LoadSys)
      { pcs := [PC.recheck, PC.check], loaded := false, lock := some 0,
        loads := 0 } :=
    LoadStep.acquire _ 0 rfl rfl
  have h3 : LoadStep
      ({ pcs := [PC.recheck, PC.check], loaded := false, lock := some 0,
         loads := 0 } : LoadSys)
      { pcs := [PC.doLoad, PC.check], loaded := false, lock := some 0,
        loads := 0 } :=
    LoadStep.recheckGo _ 0 rfl rfl
  have h4 : LoadStep
      ({ pcs := [PC.doLoad, PC.check], loaded := false, lock := some 0,
         loads := 0 } : LoadSys)
      { pcs := [PC.markLoaded, PC.check], loaded := false, lock := some 0,
        loads := 1 } :=
    LoadStep.runLoad _ 0 rfl
  have h5 : LoadStep
      ({ pcs := [PC.markLoaded, PC.check], loaded := false, lock := some 0,
         loads := 1 } : LoadSys)
      { pcs := [PC.done, PC.check], loaded := true, lock := none,
        loads := 1 } :=
    LoadStep.finish _ 0 rfl
  have h6 : LoadStep
      ({ pcs := [PC.done, PC.check], loaded := true, lock := none,
         loads := 1 } : LoadSys)
      { pcs := [PC.done, PC.done], loaded := true, lock := none,
        loads := 1 } :=
    LoadStep.fastSkip _ 1 rfl rfl
  have hreach : Reachable 2
      { pcs := [PC.done, PC.done], loaded := true, lock := none,
        loads := 1 } :=
    Relation.ReflTransGen.head h1
      (Relation.ReflTransGen.head h2
        (Relation.ReflTransGen.head h3
          (Relation.ReflTransGen.head h4
            (Relation.ReflTransGen.head h5
              (Relation.ReflTransGen.head h6
                Relation.ReflTransGen.refl)))))
  exact (ensure_loaded_single_load 2 _ hreach).2 (by decide) (by norm_num)

end ServerCore
